import Mathlib

/-!
Verification development for the async Firebird DBAPI adapter
(`sqlalchemy_firebird_async`).  The two driver-variant modules are embedded
shallowly:

* `firebird_driver.py` — `AsyncCursor` / `AsyncConnection` with result
  buffering, row-count normalization, zombie-registry shutdown safety, and
  the dialect's batched-insert-with-returning emulation;
* `fdb.py` — the thinner `AsyncCursor` / `AsyncConnection` wrappers with an
  optional dedicated one-worker executor, plus disconnect classification.

Statement texts are modelled as `List Char`; Python's `str.strip`,
`str.upper`, `str.lower` and the `in` substring test are given explicit
executable counterparts below.
-/

/-- Python whitespace predicate for the characters relevant to `str.strip`
(ASCII space, tab, newline, carriage return, vertical tab, form feed). -/
def pyIsSpace (c : Char) : Bool :=
  c = ' ' || c = '\t' || c = '\n' || c = '\r' || c = '\x0b' || c = '\x0c'

/-- Python `str.upper` on a character list (ASCII via `Char.toUpper`). -/
def pyUpper (s : List Char) : List Char := s.map Char.toUpper

/-- Python `str.lower` on a character list (ASCII via `Char.toLower`). -/
def pyLower (s : List Char) : List Char := s.map Char.toLower

/-- Python `str.lstrip`: drop leading whitespace. -/
def pyLstrip (s : List Char) : List Char := s.dropWhile pyIsSpace

/-- Python `str.rstrip`: drop trailing whitespace. -/
def pyRstrip (s : List Char) : List Char := (s.reverse.dropWhile pyIsSpace).reverse

/-- Python `str.strip`: drop leading and trailing whitespace. -/
def pyStrip (s : List Char) : List Char := pyRstrip (pyLstrip s)

/-- Python's `needle in hay` substring test. -/
def strContains (hay needle : List Char) : Bool :=
  needle.isPrefixOf hay ||
    match hay with
    | [] => false
    | _ :: t => strContains t needle

/-! ## Model of the wrapped blocking cursor

The blocking driver cursor is external; the adapter only reads its
`rowcount`, `description` and fetch results.  We model the observable
surface the adapter touches. -/

/-- Observable state of the wrapped blocking (synchronous) cursor. -/
structure SyncCursor (Row Desc : Type) where
  /-- rows still pending on the live cursor (served by live fetches) -/
  pending : List Row
  /-- the blocking driver's reported `rowcount` -/
  rowcount : Int
  /-- the blocking driver's `description` (may be absent) -/
  description : Option Desc
  deriving DecidableEq, Repr

/-- State of `firebird_driver.AsyncCursor`: the wrapped blocking cursor plus
the buffering fields `_buffered_rows`, `_buffered_index`,
`_buffered_description` and the cached `_rowcount` (initialized to -1). -/
structure AsyncCursorState (Row Desc : Type) where
  sync : SyncCursor Row Desc
  bufferedRows : Option (List Row)
  bufferedIndex : Nat
  bufferedDescription : Option Desc
  rowcount : Int
  deriving DecidableEq, Repr

/-- The statement classification performed in `AsyncCursor.execute`'s
`finally` block: `operation.strip().upper()` starts with `SELECT` or
`WITH`. -/
def readOnlyStmt (operation : List Char) : Bool :=
  let u := pyUpper (pyStrip operation)
  ("SELECT".toList.isPrefixOf u) || ("WITH".toList.isPrefixOf u)

/-- Embedding of `AsyncCursor.execute` (firebird_driver variant), abstracted over the
blocking call: `syncAfter` is the wrapped cursor's state once the blocking
`execute` returned.  The `finally` block then normalizes the cached
row-count: -1 for `SELECT`/`WITH` statements, the blocking cursor's
reported count otherwise. -/
def AsyncCursor.execute {Row Desc : Type} (operation : List Char)
    (syncAfter : SyncCursor Row Desc) (st : AsyncCursorState Row Desc) :
    AsyncCursorState Row Desc :=
  let st1 := { st with sync := syncAfter }
  if readOnlyStmt operation then
    { st1 with rowcount := -1 }
  else
    { st1 with rowcount := syncAfter.rowcount }

/-- Embedding of `AsyncCursor.fetchone`: serve from the buffer when one is installed
(`None` past its end), else pop from the live cursor. -/
def AsyncCursor.fetchone {Row Desc : Type} (st : AsyncCursorState Row Desc) :
    Option Row × AsyncCursorState Row Desc :=
  match st.bufferedRows with
  | some rows =>
    if hlt : st.bufferedIndex < rows.length then
      (some (rows.get ⟨st.bufferedIndex, hlt⟩),
       { st with bufferedIndex := st.bufferedIndex + 1 })
    else (none, st)
  | none =>
    match st.sync.pending with
    | [] => (none, st)
    | r :: rest => (some r, { st with sync := { st.sync with pending := rest } })

/-- Embedding of `AsyncCursor.fetchall`: drain the buffer from the current index when one
is installed, else drain the live cursor. -/
def AsyncCursor.fetchall {Row Desc : Type} (st : AsyncCursorState Row Desc) :
    List Row × AsyncCursorState Row Desc :=
  match st.bufferedRows with
  | some rows =>
    (rows.drop st.bufferedIndex, { st with bufferedIndex := rows.length })
  | none =>
    (st.sync.pending, { st with sync := { st.sync with pending := [] } })

/-- Embedding of `AsyncCursor._set_buffered_rows`: replace the buffer contents, reset the
buffer index to 0, store the column-description snapshot. -/
def AsyncCursor.setBufferedRows {Row Desc : Type}
    (st : AsyncCursorState Row Desc) (rows : List Row) (descr : Option Desc) :
    AsyncCursorState Row Desc :=
  { st with bufferedRows := some rows, bufferedIndex := 0,
            bufferedDescription := descr }

/-- The `description` property: buffered snapshot when present, else the
live cursor's description. -/
def AsyncCursor.descriptionProp {Row Desc : Type}
    (st : AsyncCursorState Row Desc) : Option Desc :=
  match st.bufferedDescription with
  | some d => some d
  | none => st.sync.description

/-- The `rowcount` property: returns the cached `_rowcount` field. -/
def AsyncCursor.rowcountProp {Row Desc : Type}
    (st : AsyncCursorState Row Desc) : Int :=
  st.rowcount

/-- Repeated `fetchone`: apply `AsyncCursor.fetchone` `n` times, collecting
the returned rows in order. -/
def AsyncCursor.fetchN {Row Desc : Type} (st : AsyncCursorState Row Desc) :
    Nat → List (Option Row) × AsyncCursorState Row Desc
  | 0 => ([], st)
  | n + 1 =>
    let p := AsyncCursor.fetchone st
    let q := AsyncCursor.fetchN p.2 n
    (p.1 :: q.1, q.2)

/-! ## Batched-insert-with-returning emulation

`AsyncFirebirdDialect.do_executemany` (firebird_driver variant): when the
statement is an insert with an effective returning clause, each parameter
set is executed individually; the loop accumulates result rows, the first
available column description, and a running total of positive per-statement
row counts, then installs everything into the cursor's buffer.  The effect
of one per-parameter-set `do_execute` + `fetchall` + `description` read on
the live cursor is summarized as a `StmtResult`. -/

/-- What one individual statement execution yields: the cursor's reported
affected-row count, the rows produced by `fetchall`, and the column
description visible afterwards. -/
structure StmtResult (Row Desc : Type) where
  rowcount : Int
  rows : List Row
  description : Option Desc
  deriving DecidableEq, Repr

/-- One iteration of the `do_executemany` returning-emulation loop on the
accumulator `(rows, description, total_rowcount)`, mirroring the source:
add `cursor.rowcount` when positive, capture `cursor.description` when none
captured yet, extend the row list when the batch is non-empty. -/
def emStep {Row Desc : Type} (acc : List Row × Option Desc × Int)
    (r : StmtResult Row Desc) : List Row × Option Desc × Int :=
  let total := if r.rowcount > 0 then acc.2.2 + r.rowcount else acc.2.2
  let descr := match acc.2.1 with
    | none => r.description
    | some d => some d
  let rows := if r.rows.isEmpty then acc.1 else acc.1 ++ r.rows
  (rows, descr, total)

/-- Embedding of `AsyncFirebirdDialect.do_executemany` in the insert-with-returning case:
run the per-parameter-set loop over the given statement results, then
install the accumulated rows and description into the cursor's buffer and
overwrite the cached `_rowcount` with the accumulated total. -/
def do_executemany_returning {Row Desc : Type}
    (results : List (StmtResult Row Desc)) (st : AsyncCursorState Row Desc) :
    AsyncCursorState Row Desc :=
  let acc := results.foldl emStep ([], none, 0)
  let st1 := AsyncCursor.setBufferedRows st acc.1 acc.2.1
  { st1 with rowcount := acc.2.2 }

/-! ## Close / terminate (firebird_driver variant)

`AsyncCursor.close` and `AsyncConnection.close` share the same algorithm.
The runtime conditions the method reads (the `sys` default argument, the
result of `sys.is_finalizing()`, whether that check itself raises, the
greenlet context marker, whether the scheduler loop is closed, whether the
blocking `close` call raises, and whether the `zombies` default argument is
absent) are gathered in `FbCloseEnv`.  Every branch of the Python method
returns normally — no path re-raises — so the embedding is a total
function. -/

/-- Runtime conditions observed by `close` in the firebird_driver variant. -/
structure FbCloseEnv where
  /-- the `sys` default argument is `None` (late-teardown capture) -/
  sysAbsent : Bool
  /-- whether `sys.is_finalizing()` returns true -/
  finalizing : Bool
  /-- the `sys.is_finalizing()` check itself raises -/
  finalizingCheckRaises : Bool
  /-- the greenlet context marker is present -/
  inGreenlet : Bool
  /-- whether `loop.is_closed()` is true -/
  loopClosed : Bool
  /-- the bridged blocking `close` call raises -/
  underlyingCloseRaises : Bool
  /-- the `zombies` default argument is `None` -/
  zombiesAbsent : Bool
  deriving DecidableEq, Repr

/-- The `is_finalizing` flag computed at the top of `close`. -/
def FbCloseEnv.isFinalizing (e : FbCloseEnv) : Bool :=
  e.sysAbsent || e.finalizing || e.finalizingCheckRaises

/-- How one `close` call ended: no-op (handle already gone), successful
bridged close of the blocking handle, or handle handed to the zombie
registry path. -/
inductive CloseOutcome where
  | noop
  | closedOk
  | zombied
  deriving DecidableEq, Repr

/-- Embedding of `firebird_driver.AsyncCursor.close`: returns the new handle reference,
the new zombie-registry contents, and which path was taken. -/
def fbCursorClose {H : Type} (env : FbCloseEnv) (handle : Option H)
    (zombies : List H) : Option H × List H × CloseOutcome :=
  match handle with
  | none => (none, zombies, CloseOutcome.noop)
  | some h =>
    if env.isFinalizing then
      (none, (if env.zombiesAbsent then zombies else zombies ++ [h]),
       CloseOutcome.zombied)
    else if env.inGreenlet && !env.loopClosed then
      if env.underlyingCloseRaises then
        (none, (if env.zombiesAbsent then zombies else zombies ++ [h]),
         CloseOutcome.zombied)
      else (none, zombies, CloseOutcome.closedOk)
    else
      (none, (if env.zombiesAbsent then zombies else zombies ++ [h]),
       CloseOutcome.zombied)

/-- Embedding of `firebird_driver.AsyncConnection.close`: textually the same algorithm
as the cursor's, applied to `_sync_connection`. -/
def fbConnClose {H : Type} (env : FbCloseEnv) (handle : Option H)
    (zombies : List H) : Option H × List H × CloseOutcome :=
  match handle with
  | none => (none, zombies, CloseOutcome.noop)
  | some h =>
    if env.isFinalizing then
      (none, (if env.zombiesAbsent then zombies else zombies ++ [h]),
       CloseOutcome.zombied)
    else if env.inGreenlet && !env.loopClosed then
      if env.underlyingCloseRaises then
        (none, (if env.zombiesAbsent then zombies else zombies ++ [h]),
         CloseOutcome.zombied)
      else (none, zombies, CloseOutcome.closedOk)
    else
      (none, (if env.zombiesAbsent then zombies else zombies ++ [h]),
       CloseOutcome.zombied)

/-- Embedding of `firebird_driver.AsyncConnection.terminate`: the source body is exactly
`self.close()`. -/
def fbConnTerminate {H : Type} (env : FbCloseEnv) (handle : Option H)
    (zombies : List H) : Option H × List H × CloseOutcome :=
  fbConnClose env handle zombies

/-! ## Close / terminate (fdb variant)

`fdb.AsyncCursor.close` is `return self._exec(self._sync_cursor.close)`:
it keeps no guard state, never clears the handle reference, and propagates
any exception of the blocking close.  We instrument the number of times the
blocking `close` has been invoked. -/

/-- Observable state for the fdb cursor wrapper around its blocking close:
the wrapper itself holds no idempotence guard, so the only evolving datum
is how often the underlying blocking `close` has been invoked. -/
structure FdbCursorCloseState where
  underlyingCloseCalls : Nat
  deriving DecidableEq, Repr

/-- Embedding of `fdb.AsyncCursor.close`: unconditionally invoke the blocking close and
propagate its outcome (`true` = the call raised and the exception escapes
the wrapper). -/
def fdbCursorClose (underlyingCloseRaises : Bool)
    (st : FdbCursorCloseState) : FdbCursorCloseState × Bool :=
  ({ underlyingCloseCalls := st.underlyingCloseCalls + 1 },
   underlyingCloseRaises)

/-- State of `fdb.AsyncConnection` relevant to close/terminate: whether the
dedicated one-worker executor is still attached. -/
structure FdbConnState where
  executorPresent : Bool
  deriving DecidableEq, Repr

/-- Embedding of `fdb.AsyncConnection.close`: bridge the blocking close, and in the
`finally` block shut down and clear the dedicated executor if present; an
exception from the blocking close propagates (`true` in the result). -/
def fdbConnClose (underlyingCloseRaises : Bool) (_st : FdbConnState) :
    FdbConnState × Bool :=
  ({ executorPresent := false }, underlyingCloseRaises)

/-- Embedding of `fdb.AsyncConnection.terminate`: the source body is exactly
`return self.close()`. -/
def fdbConnTerminate (underlyingCloseRaises : Bool) (st : FdbConnState) :
    FdbConnState × Bool :=
  fdbConnClose underlyingCloseRaises st

/-! ## Suspension-bridge routing (`_exec`)

Both variants inspect the greenlet context marker
(`__sqlalchemy_greenlet_provider__`); the fdb variant additionally branches
on whether a dedicated executor is attached.  The route taken and the value
returned are modelled together. -/

/-- Which path `_exec` routes a blocking callable through. -/
inductive ExecRoute where
  /-- route `await_only(loop.run_in_executor(None, ...))` — scheduler's shared pool -/
  | loopShared
  /-- route `await_only(loop.run_in_executor(self._executor, ...))` — dedicated pool -/
  | loopDedicated
  /-- route `self._executor.submit(...).result()` — dedicated pool, blocking wait -/
  | dedicatedSubmit
  /-- route `func(*args, **kwargs)` — inline on the current thread -/
  | inline
  deriving DecidableEq, Repr

/-- Whether a route hands the callable to a worker thread. -/
def ExecRoute.usesWorkerThread : ExecRoute → Bool
  | ExecRoute.inline => false
  | _ => true

/-- Embedding of `firebird_driver.AsyncCursor._exec` / `AsyncConnection._exec`: bridge
through the shared pool when the greenlet marker is present, else call
inline.  The returned value is the callable's result either way. -/
def fbExec {β : Type} (inGreenlet : Bool) (f : Unit → β) : ExecRoute × β :=
  if inGreenlet then (ExecRoute.loopShared, f ())
  else (ExecRoute.inline, f ())

/-- Embedding of `fdb.AsyncCursor._exec` / `AsyncConnection._exec`: with a dedicated
executor attached, bridge through it when the greenlet marker is present
and otherwise submit to it and wait; without one, bridge through the shared
pool when the marker is present and otherwise call inline. -/
def fdbExec {β : Type} (inGreenlet executorPresent : Bool) (f : Unit → β) :
    ExecRoute × β :=
  if executorPresent then
    if inGreenlet then (ExecRoute.loopDedicated, f ())
    else (ExecRoute.dedicatedSubmit, f ())
  else
    if inGreenlet then (ExecRoute.loopShared, f ())
    else (ExecRoute.inline, f ())

/-! ## Exception classification -/

/-- Result of the dialect-level exception translation hooks. -/
inductive ExceptionTranslation where
  /-- re-raised as `sqlalchemy.exc.IntegrityError` -/
  | integrityError
  /-- deferred to the superclass (propagates as-is) -/
  | passthrough
  deriving DecidableEq, Repr

/-- The constraint-violation vocabulary test shared by
`dbapi_exception_translation`, `wrap_dbapi_exception` and `do_execute` in
both dialect variants: the lower-cased message contains `violation`
together with one of `primary`, `unique`, `foreign`, `constraint`. -/
def isIntegrityMessage (msg : List Char) : Bool :=
  let m := pyLower msg
  strContains m "violation".toList &&
    (strContains m "primary".toList || strContains m "unique".toList ||
     strContains m "foreign".toList || strContains m "constraint".toList)

/-- Embedding of `dbapi_exception_translation` on an exception's message text: translate
to the integrity category on the vocabulary match, else defer to the
superclass. -/
def dbapi_exception_translation (msg : List Char) : ExceptionTranslation :=
  if isIntegrityMessage msg then ExceptionTranslation.integrityError
  else ExceptionTranslation.passthrough

/-- Embedding of `AsyncFDBDialect.is_disconnect`: for a `DatabaseError`, test the
error-code slot `args[1]` against the designated connection-lost codes, or
the message for the designated substring; otherwise defer to the
superclass's verdict. -/
def is_disconnect (isDatabaseError : Bool) (code : Int) (msg : List Char)
    (superVerdict : Bool) : Bool :=
  if isDatabaseError then
    (code == 335546001 || code == 335546003 || code == 335546005) ||
      strContains msg "Error writing data to the connection".toList
  else superVerdict

/-! ## Auxiliary lemmas -/

/-- The map `Char.toUpper` fixes every whitespace character. -/
lemma toUpper_of_pyIsSpace {c : Char} (h : pyIsSpace c = true) :
    c.toUpper = c := by
  simp only [pyIsSpace, Bool.or_eq_true, decide_eq_true_eq] at h
  rcases h with ⟨⟨⟨⟨h | h⟩ | h⟩ | h⟩ | h⟩ | h <;> subst h <;> decide

/-- Dropping trailing whitespace splits a string into its `rstrip` and an
all-whitespace tail. -/
lemma pyRstrip_decomp (s : List Char) :
    s = pyRstrip s ++ (s.reverse.takeWhile pyIsSpace).reverse ∧
      ∀ c ∈ (s.reverse.takeWhile pyIsSpace).reverse, pyIsSpace c = true := by
  constructor
  · have h := List.takeWhile_append_dropWhile (p := pyIsSpace) (l := s.reverse)
    calc s = s.reverse.reverse := (List.reverse_reverse s).symm
      _ = (s.reverse.takeWhile pyIsSpace ++ s.reverse.dropWhile pyIsSpace).reverse := by
            rw [h]
      _ = pyRstrip s ++ (s.reverse.takeWhile pyIsSpace).reverse := by
            rw [List.reverse_append]; rfl
  · intro c hc
    exact List.mem_takeWhile_imp (List.mem_reverse.mp hc)

/-- A whitespace-free prefix test ignores an all-whitespace tail. -/
lemma isPrefixOf_append_spaces (P u t : List Char)
    (hP : ∀ c ∈ P, pyIsSpace c = false)
    (ht : ∀ c ∈ t, pyIsSpace c = true) :
    P.isPrefixOf (u ++ t) = P.isPrefixOf u := by
  rw [Bool.eq_iff_iff, List.isPrefixOf_iff_prefix, List.isPrefixOf_iff_prefix]
  constructor
  · intro h
    rcases List.prefix_or_prefix_of_prefix h (List.prefix_append u t) with hPu | huP
    · exact hPu
    · obtain ⟨r, hr⟩ := huP
      rcases r with _ | ⟨c, r'⟩
      · simp only [List.append_nil] at hr
        exact hr ▸ List.prefix_refl u
      · exfalso
        have hrt : (c :: r') <+: t := by
          refine (List.prefix_append_right_inj u).mp ?_
          rw [hr]; exact h
        have hct : c ∈ t := hrt.subset (List.mem_cons_self c r')
        have hcP : c ∈ P := by
          rw [← hr]
          exact List.mem_append_right u (List.mem_cons_self c r')
        have := hP c hcP
        rw [ht c hct] at this
        exact Bool.true_eq_false.mp this
  · intro h
    exact h.trans (List.prefix_append u t)

/-- The read-only classification in `execute` is insensitive to trailing
whitespace: testing against `strip` agrees with testing against `lstrip`
(the claim-level formulation). -/
lemma readOnlyStmt_lstrip (operation : List Char) :
    readOnlyStmt operation =
      ("SELECT".toList.isPrefixOf (pyUpper (pyLstrip operation)) ||
       "WITH".toList.isPrefixOf (pyUpper (pyLstrip operation))) := by
  obtain ⟨hdec, hsp⟩ := pyRstrip_decomp (pyLstrip operation)
  have hup : pyUpper (pyLstrip operation) =
      pyUpper (pyStrip operation) ++
        pyUpper ((pyLstrip operation).reverse.takeWhile pyIsSpace).reverse := by
    rw [pyStrip]
    conv_lhs => rw [hdec]
    exact List.map_append _ _ _
  have hsp' : ∀ c ∈
      pyUpper ((pyLstrip operation).reverse.takeWhile pyIsSpace).reverse,
      pyIsSpace c = true := by
    intro c hc
    obtain ⟨c₀, hc₀, rfl⟩ := List.mem_map.mp hc
    have h₀ := hsp c₀ hc₀
    rw [toUpper_of_pyIsSpace h₀]
    exact h₀
  rw [readOnlyStmt, hup,
      isPrefixOf_append_spaces _ _ _ (by decide) hsp',
      isPrefixOf_append_spaces _ _ _ (by decide) hsp']

/-- Repeated `fetchone` against an installed buffer yields the next `n`
buffered rows and advances the buffer index by `n`. -/
lemma fetchN_buffered {Row Desc : Type} :
    ∀ (n : Nat) (st : AsyncCursorState Row Desc) (rows : List Row),
      st.bufferedRows = some rows →
      st.bufferedIndex + n ≤ rows.length →
      AsyncCursor.fetchN st n =
        (((rows.drop st.bufferedIndex).take n).map some,
         { st with bufferedIndex := st.bufferedIndex + n }) := by
  intro n
  induction n with
  | zero =>
    intro st rows h hle
    simp [AsyncCursor.fetchN]
  | succ n ih =>
    intro st rows h hle
    have hlt : st.bufferedIndex < rows.length := by omega
    have hstep : AsyncCursor.fetchone st =
        (some (rows.get ⟨st.bufferedIndex, hlt⟩),
         { st with bufferedIndex := st.bufferedIndex + 1 }) := by
      rw [AsyncCursor.fetchone]
      split
      · next rows' h' =>
          rw [h] at h'
          cases h'
          rw [dif_pos hlt]
      · next h' => rw [h] at h'; cases h'
    have hrec := ih { st with bufferedIndex := st.bufferedIndex + 1 } rows
      (by simpa using h) (by simp; omega)
    rw [AsyncCursor.fetchN, hstep]
    simp only at hrec ⊢
    rw [hrec]
    have hdrop : rows.drop st.bufferedIndex =
        rows.get ⟨st.bufferedIndex, hlt⟩ :: rows.drop (st.bufferedIndex + 1) := by
      rw [List.drop_eq_getElem_cons hlt]; rfl
    rw [hdrop]
    simp only [List.take_succ_cons, List.map_cons]
    have harith : st.bufferedIndex + 1 + n = st.bufferedIndex + (n + 1) := by omega
    rw [harith]

/-- The description the emulation loop ends up with: the first non-absent
per-statement description (the loop re-tries while `description is None`). -/
def firstSomeDesc {Row Desc : Type} : List (StmtResult Row Desc) → Option Desc
  | [] => none
  | r :: t =>
    match r.description with
    | some d => some d
    | none => firstSomeDesc t

/-- Closed form of the `do_executemany` emulation fold. -/
lemma emStep_foldl {Row Desc : Type} :
    ∀ (results : List (StmtResult Row Desc)) (rows0 : List Row)
      (d0 : Option Desc) (t0 : Int),
      results.foldl emStep (rows0, d0, t0) =
        (rows0 ++ (results.map (fun r => r.rows)).flatten,
         (match d0 with
          | some d => some d
          | none => firstSomeDesc results),
         t0 + (results.map
            (fun r => if r.rowcount > 0 then r.rowcount else 0)).sum) := by
  intro results
  induction results with
  | nil =>
    intro rows0 d0 t0
    cases d0 <;> simp [firstSomeDesc]
  | cons r t ih =>
    intro rows0 d0 t0
    have hstep : emStep (rows0, d0, t0) r =
        (rows0 ++ r.rows,
         (match d0 with
          | none => r.description
          | some d => some d),
         t0 + (if r.rowcount > 0 then r.rowcount else 0)) := by
      rw [emStep]
      by_cases hrc : r.rowcount > 0
      · by_cases hre : r.rows.isEmpty
        · simp [hrc, hre, List.isEmpty_iff.mp hre]
        · simp [hrc, hre]
      · by_cases hre : r.rows.isEmpty
        · simp [hrc, hre, List.isEmpty_iff.mp hre]
        · simp [hrc, hre]
    rw [List.foldl_cons, hstep, ih]
    simp only [List.map_cons, List.flatten_cons, List.sum_cons]
    cases d0 with
    | none =>
      rw [firstSomeDesc]
      cases r.description <;>
        simp [List.append_assoc, add_assoc]
    | some d =>
      simp [List.append_assoc, add_assoc]

/-- Flattening a list of singleton rows recovers the row list. -/
lemma flatten_map_singleton {α : Type} :
    ∀ (l : List α), (l.map (fun x => [x])).flatten = l := by
  intro l
  induction l with
  | nil => rfl
  | cons a t ih => simp [ih]

/-- When every per-statement count is nonnegative, summing only the
positive counts is the same as summing all of them. -/
lemma sum_pos_counts {Row Desc : Type} :
    ∀ (results : List (StmtResult Row Desc)),
      (∀ r ∈ results, 0 ≤ r.rowcount) →
      (results.map (fun r => if r.rowcount > 0 then r.rowcount else 0)).sum =
        (results.map (fun r => r.rowcount)).sum := by
  intro results
  induction results with
  | nil => intro _; rfl
  | cons r t ih =>
    intro h
    have hr := h r (List.mem_cons_self r t)
    have ht := fun x hx => h x (List.mem_cons_of_mem r hx)
    simp only [List.map_cons, List.sum_cons, ih ht]
    congr 1
    by_cases hrc : r.rowcount > 0
    · rw [if_pos hrc]
    · rw [if_neg hrc]
      omega

/-! ## Claim theorems -/

/-- C1.  Batched-insert-with-returning emulation: for an insert with a
returning clause executed via `executemany` with parameter sets each
yielding exactly one row (and nonnegative per-statement affected counts,
the first statement exposing a column description), the dialect installs
exactly one buffered row per parameter set, in parameter-set order, with
the buffer index reset, the description captured from the first statement,
and the cached rowcount equal to the sum of the per-statement affected
counts. -/
theorem executemany_returning_emulation {Row Desc : Type} :
    ∀ (results : List (StmtResult Row Desc)) (st : AsyncCursorState Row Desc)
      (rs : List Row) (d : Desc),
      results.map (fun r => r.rows) = rs.map (fun x => [x]) →
      (∀ r ∈ results, 0 ≤ r.rowcount) →
      (results.map (fun r => r.description)).head? = some (some d) →
      (do_executemany_returning results st).bufferedRows = some rs ∧
      rs.length = results.length ∧
      (do_executemany_returning results st).bufferedIndex = 0 ∧
      (do_executemany_returning results st).bufferedDescription = some d ∧
      (do_executemany_returning results st).rowcount =
        (results.map (fun r => r.rowcount)).sum := by
  intro results st rs d h1 h2 h3
  have hrows : (results.map (fun r => r.rows)).flatten = rs := by
    rw [h1, flatten_map_singleton]
  have hlen : rs.length = results.length := by
    have hl := congrArg List.length h1
    simpa using hl.symm
  have hdesc : firstSomeDesc results = some d := by
    cases results with
    | nil => simp at h3
    | cons r t =>
      simp only [List.map_cons, List.head?_cons, Option.some.injEq] at h3
      rw [firstSomeDesc, h3]
  have hfold := emStep_foldl results ([] : List Row) (none : Option Desc) (0 : Int)
  have hbr : (do_executemany_returning results st).bufferedRows =
      some ((results.map (fun r => r.rows)).flatten) := by
    simp only [do_executemany_returning, AsyncCursor.setBufferedRows, hfold,
      List.nil_append]
  have hbd : (do_executemany_returning results st).bufferedDescription =
      firstSomeDesc results := by
    simp only [do_executemany_returning, AsyncCursor.setBufferedRows, hfold]
  have hrc : (do_executemany_returning results st).rowcount =
      0 + (results.map
        (fun r => if r.rowcount > 0 then r.rowcount else 0)).sum := by
    simp only [do_executemany_returning, AsyncCursor.setBufferedRows, hfold]
  refine ⟨by rw [hbr, hrows], hlen, rfl, by rw [hbd, hdesc], ?_⟩
  rw [hrc, sum_pos_counts results h2]
  ring

/-- C1 witness: three parameter sets, one returned row and one affected row
each. -/
theorem executemany_returning_emulation_witness :
    (do_executemany_returning
        ([⟨1, [10], some 7⟩, ⟨1, [20], some 7⟩, ⟨1, [30], some 7⟩] :
          List (StmtResult Nat Nat))
        ⟨⟨[], -1, none⟩, none, 0, none, -1⟩).bufferedRows = some [10, 20, 30] ∧
    (do_executemany_returning
        ([⟨1, [10], some 7⟩, ⟨1, [20], some 7⟩, ⟨1, [30], some 7⟩] :
          List (StmtResult Nat Nat))
        ⟨⟨[], -1, none⟩, none, 0, none, -1⟩).bufferedDescription = some 7 ∧
    (do_executemany_returning
        ([⟨1, [10], some 7⟩, ⟨1, [20], some 7⟩, ⟨1, [30], some 7⟩] :
          List (StmtResult Nat Nat))
        ⟨⟨[], -1, none⟩, none, 0, none, -1⟩).rowcount = 3 := by
  have h := executemany_returning_emulation
    ([⟨1, [10], some 7⟩, ⟨1, [20], some 7⟩, ⟨1, [30], some 7⟩] :
      List (StmtResult Nat Nat))
    ⟨⟨[], -1, none⟩, none, 0, none, -1⟩ [10, 20, 30] 7
    (by decide) (by decide) (by decide)
  exact ⟨h.1, h.2.2.2.1, h.2.2.2.2.trans (by decide)⟩

/-- C2.  Row-count normalization on `execute`: a statement whose text, after
trimming leading whitespace and case-folding, begins with `SELECT` or
`WITH` leaves the cursor's rowcount at -1 regardless of what the blocking
driver reports; any other statement adopts the blocking cursor's reported
row count. -/
theorem execute_rowcount_normalization {Row Desc : Type} :
    ∀ (operation : List Char) (syncAfter : SyncCursor Row Desc)
      (st : AsyncCursorState Row Desc),
      (("SELECT".toList.isPrefixOf (pyUpper (pyLstrip operation)) = true ∨
        "WITH".toList.isPrefixOf (pyUpper (pyLstrip operation)) = true) →
        (AsyncCursor.execute operation syncAfter st).rowcount = -1) ∧
      (¬ ("SELECT".toList.isPrefixOf (pyUpper (pyLstrip operation)) = true ∨
          "WITH".toList.isPrefixOf (pyUpper (pyLstrip operation)) = true) →
        (AsyncCursor.execute operation syncAfter st).rowcount =
          syncAfter.rowcount) := by
  intro operation syncAfter st
  have hro : readOnlyStmt operation =
      ("SELECT".toList.isPrefixOf (pyUpper (pyLstrip operation)) ||
       "WITH".toList.isPrefixOf (pyUpper (pyLstrip operation))) :=
    readOnlyStmt_lstrip operation
  constructor
  · intro h
    have hb : readOnlyStmt operation = true := by
      rw [hro, Bool.or_eq_true]
      exact h
    simp [AsyncCursor.execute, hb]
  · intro h
    have hA : "SELECT".toList.isPrefixOf (pyUpper (pyLstrip operation)) = false :=
      Bool.eq_false_iff.mpr (fun hA => h (Or.inl hA))
    have hB : "WITH".toList.isPrefixOf (pyUpper (pyLstrip operation)) = false :=
      Bool.eq_false_iff.mpr (fun hB => h (Or.inr hB))
    have hb : readOnlyStmt operation = false := by
      rw [hro, hA, hB]
      rfl
    simp [AsyncCursor.execute, hb]

/-- C2 witness: a leading-whitespace `select` keeps rowcount at -1; an
`UPDATE` adopts the blocking cursor's reported count (7). -/
theorem execute_rowcount_normalization_witness :
    (AsyncCursor.execute "  select 1 from rdb$database".toList
        (⟨[], 0, none⟩ : SyncCursor Nat Nat)
        ⟨⟨[], -1, none⟩, none, 0, none, -1⟩).rowcount = -1 ∧
    (AsyncCursor.execute "UPDATE t SET x = 1".toList
        (⟨[], 7, none⟩ : SyncCursor Nat Nat)
        ⟨⟨[], -1, none⟩, none, 0, none, -1⟩).rowcount = 7 := by
  constructor
  · exact (execute_rowcount_normalization "  select 1 from rdb$database".toList
      (⟨[], 0, none⟩ : SyncCursor Nat Nat)
      ⟨⟨[], -1, none⟩, none, 0, none, -1⟩).1 (by decide)
  · exact (execute_rowcount_normalization "UPDATE t SET x = 1".toList
      (⟨[], 7, none⟩ : SyncCursor Nat Nat)
      ⟨⟨[], -1, none⟩, none, 0, none, -1⟩).2 (by decide)

/-- C3.  Buffer round-trip: after installing N rows via
`_set_buffered_rows`, N `fetchone` calls yield exactly those rows in order,
the (N+1)-th returns no row; alternatively `fetchall` returns all N rows
and a second `fetchall` returns the empty list. -/
theorem buffer_roundtrip {Row Desc : Type} :
    ∀ (st : AsyncCursorState Row Desc) (rows : List Row)
      (descr : Option Desc),
      (AsyncCursor.fetchN (AsyncCursor.setBufferedRows st rows descr)
          rows.length).1 = rows.map some ∧
      (AsyncCursor.fetchone
          (AsyncCursor.fetchN (AsyncCursor.setBufferedRows st rows descr)
            rows.length).2).1 = none ∧
      (AsyncCursor.fetchall (AsyncCursor.setBufferedRows st rows descr)).1 =
        rows ∧
      (AsyncCursor.fetchall
          (AsyncCursor.fetchall
            (AsyncCursor.setBufferedRows st rows descr)).2).1 = [] := by
  intro st rows descr
  have hN := fetchN_buffered rows.length
    (AsyncCursor.setBufferedRows st rows descr) rows rfl
    (by simp [AsyncCursor.setBufferedRows])
  refine ⟨?_, ?_, ?_, ?_⟩
  · rw [hN]
    simp [AsyncCursor.setBufferedRows]
  · rw [hN]
    simp [AsyncCursor.fetchone, AsyncCursor.setBufferedRows]
  · simp [AsyncCursor.fetchall, AsyncCursor.setBufferedRows]
  · simp [AsyncCursor.fetchall, AsyncCursor.setBufferedRows]

/-- C4 counterexample: in the fdb variant, `close` delegates to the
blocking close on every call, so two `close` calls invoke the real
teardown twice — not at most once — and a raising blocking close escapes
the wrapper. -/
theorem close_not_idempotent_fdb_cex :
    (fdbCursorClose false (fdbCursorClose false ⟨0⟩).1).1.underlyingCloseCalls
      = 2 ∧
    ¬ (fdbCursorClose false
        (fdbCursorClose false ⟨0⟩).1).1.underlyingCloseCalls ≤ 1 ∧
    (fdbCursorClose true ⟨0⟩).2 = true := by
  decide

/-- C4 amended: in the firebird_driver variant, closing a cursor or a
connection clears the handle reference, ends in exactly one of
{successful close, handed to the zombie registry}, and a second `close`
call in any environment is a no-op (no further teardown, registry
unchanged); no path raises (the embedding is a total function). -/
theorem close_idempotent_firebird {H : Type} :
    ∀ (env env2 : FbCloseEnv) (h : H) (z : List H),
      env.zombiesAbsent = false →
      (fbCursorClose env (some h) z).1 = none ∧
      ((fbCursorClose env (some h) z).2.2 = CloseOutcome.closedOk ∧
          (fbCursorClose env (some h) z).2.1 = z ∨
        (fbCursorClose env (some h) z).2.2 = CloseOutcome.zombied ∧
          (fbCursorClose env (some h) z).2.1 = z ++ [h]) ∧
      fbCursorClose env2 (fbCursorClose env (some h) z).1
          (fbCursorClose env (some h) z).2.1 =
        (none, (fbCursorClose env (some h) z).2.1, CloseOutcome.noop) ∧
      (fbConnClose env (some h) z).1 = none ∧
      ((fbConnClose env (some h) z).2.2 = CloseOutcome.closedOk ∧
          (fbConnClose env (some h) z).2.1 = z ∨
        (fbConnClose env (some h) z).2.2 = CloseOutcome.zombied ∧
          (fbConnClose env (some h) z).2.1 = z ++ [h]) ∧
      fbConnClose env2 (fbConnClose env (some h) z).1
          (fbConnClose env (some h) z).2.1 =
        (none, (fbConnClose env (some h) z).2.1, CloseOutcome.noop) := by
  intro env env2 h z hz
  have hcur : (fbCursorClose env (some h) z).1 = none ∧
      ((fbCursorClose env (some h) z).2.2 = CloseOutcome.closedOk ∧
          (fbCursorClose env (some h) z).2.1 = z ∨
        (fbCursorClose env (some h) z).2.2 = CloseOutcome.zombied ∧
          (fbCursorClose env (some h) z).2.1 = z ++ [h]) := by
    rw [fbCursorClose]
    split_ifs <;> simp_all
  have hcon : (fbConnClose env (some h) z).1 = none ∧
      ((fbConnClose env (some h) z).2.2 = CloseOutcome.closedOk ∧
          (fbConnClose env (some h) z).2.1 = z ∨
        (fbConnClose env (some h) z).2.2 = CloseOutcome.zombied ∧
          (fbConnClose env (some h) z).2.1 = z ++ [h]) := by
    rw [fbConnClose]
    split_ifs <;> simp_all
  refine ⟨hcur.1, hcur.2, ?_, hcon.1, hcon.2, ?_⟩
  · rw [hcur.1, fbCursorClose]
  · rw [hcon.1, fbConnClose]

/-- C4 witness: a concrete environment (greenlet context, open loop,
well-behaved blocking close, registry available). -/
theorem close_idempotent_firebird_witness :
    (fbCursorClose ⟨false, false, false, true, false, false, false⟩
        (some (0 : Nat)) []).1 = none ∧
    ((fbCursorClose ⟨false, false, false, true, false, false, false⟩
          (some (0 : Nat)) []).2.2 = CloseOutcome.closedOk ∧
        (fbCursorClose ⟨false, false, false, true, false, false, false⟩
          (some (0 : Nat)) []).2.1 = [] ∨
      (fbCursorClose ⟨false, false, false, true, false, false, false⟩
          (some (0 : Nat)) []).2.2 = CloseOutcome.zombied ∧
        (fbCursorClose ⟨false, false, false, true, false, false, false⟩
          (some (0 : Nat)) []).2.1 = [] ++ [0]) ∧
    fbCursorClose ⟨false, false, false, true, false, false, false⟩
        (fbCursorClose ⟨false, false, false, true, false, false, false⟩
          (some (0 : Nat)) []).1
        (fbCursorClose ⟨false, false, false, true, false, false, false⟩
          (some (0 : Nat)) []).2.1 =
      (none,
       (fbCursorClose ⟨false, false, false, true, false, false, false⟩
          (some (0 : Nat)) []).2.1, CloseOutcome.noop) := by
  have h := close_idempotent_firebird
    ⟨false, false, false, true, false, false, false⟩
    ⟨false, false, false, true, false, false, false⟩ (0 : Nat) [] rfl
  exact ⟨h.1, h.2.1, h.2.2.1⟩

/-- C5.  Shutdown safety (firebird_driver variant): when the scheduler loop
is already closed, or the interpreter is finalizing, `close` on a cursor or
a connection takes the zombie-registry path — the handle is appended to the
registry and the wrapper's reference is cleared — and no path raises. -/
theorem shutdown_safe_close {H : Type} :
    ∀ (env : FbCloseEnv) (h : H) (z : List H),
      (env.loopClosed = true ∨ env.finalizing = true) →
      env.zombiesAbsent = false →
      fbCursorClose env (some h) z = (none, z ++ [h], CloseOutcome.zombied) ∧
      fbConnClose env (some h) z = (none, z ++ [h], CloseOutcome.zombied) := by
  intro env h z htrig hz
  constructor
  · rw [fbCursorClose]
    rcases htrig with hloop | hfin
    · have hand : (env.inGreenlet && !env.loopClosed) = false := by
        rw [hloop]
        simp
      split_ifs with h1 h2 <;> simp_all
    · have hfin2 : env.isFinalizing = true := by
        simp [FbCloseEnv.isFinalizing, hfin]
      split_ifs with h1 <;> simp_all
  · rw [fbConnClose]
    rcases htrig with hloop | hfin
    · have hand : (env.inGreenlet && !env.loopClosed) = false := by
        rw [hloop]
        simp
      split_ifs with h1 h2 <;> simp_all
    · have hfin2 : env.isFinalizing = true := by
        simp [FbCloseEnv.isFinalizing, hfin]
      split_ifs with h1 <;> simp_all

/-- C5 witness: one close with the loop already closed, and one close with
the interpreter finalizing while the loop is still open; both with the
greenlet marker present and the registry available. -/
theorem shutdown_safe_close_witness :
    (fbCursorClose ⟨false, false, false, true, true, false, false⟩
        (some (0 : Nat)) [] = (none, [0], CloseOutcome.zombied) ∧
     fbConnClose ⟨false, false, false, true, true, false, false⟩
        (some (0 : Nat)) [] = (none, [0], CloseOutcome.zombied)) ∧
    (fbCursorClose ⟨false, true, false, true, false, false, false⟩
        (some (1 : Nat)) [] = (none, [1], CloseOutcome.zombied) ∧
     fbConnClose ⟨false, true, false, true, false, false, false⟩
        (some (1 : Nat)) [] = (none, [1], CloseOutcome.zombied)) :=
  ⟨shutdown_safe_close ⟨false, false, false, true, true, false, false⟩
      (0 : Nat) [] (Or.inl rfl) rfl,
   shutdown_safe_close ⟨false, true, false, true, false, false, false⟩
      (1 : Nat) [] (Or.inr rfl) rfl⟩

/-- C6 counterexample: in the fdb variant with a dedicated executor
attached, `_exec` with the cooperative-context marker absent submits the
callable to the dedicated worker pool and waits — it is not executed
inline. -/
theorem inline_mode_cex :
    (fdbExec false true (fun _ => (0 : Nat))).1 ≠ ExecRoute.inline ∧
    (fdbExec false true (fun _ => (0 : Nat))).1.usesWorkerThread = true := by
  decide

/-- C6 amended: with the cooperative-context marker absent, `_exec` runs
the callable inline in the firebird_driver variant, and in the fdb variant
only when no dedicated executor is attached; with a dedicated executor the
call is submitted to that worker pool and its result awaited
synchronously.  In every case `_exec` returns the callable's result. -/
theorem inline_mode_amended {β : Type} :
    ∀ (f : Unit → β),
      fbExec false f = (ExecRoute.inline, f ()) ∧
      fdbExec false false f = (ExecRoute.inline, f ()) ∧
      fdbExec false true f = (ExecRoute.dedicatedSubmit, f ()) ∧
      (fdbExec false true f).1.usesWorkerThread = true ∧
      (fbExec true f).2 = f () ∧
      (fdbExec true true f).2 = f () ∧
      (fdbExec true false f).2 = f () := by
  intro f
  refine ⟨rfl, rfl, rfl, rfl, rfl, rfl, rfl⟩

/-- C7 counterexample: a cursor with no buffered snapshot (no buffer
installed, no buffered description) whose live blocking cursor reports
rowcount 5 — the wrapper's `rowcount` property returns the cached -1, not
the live cursor's value, refuting "else the live blocking cursor's
value". -/
theorem rowcount_live_fallback_cex :
    AsyncCursor.rowcountProp
        (⟨⟨[], 5, none⟩, none, 0, none, -1⟩ : AsyncCursorState Nat Nat)
      = -1 ∧
    (⟨⟨[], 5, none⟩, none, 0, none, -1⟩ :
        AsyncCursorState Nat Nat).bufferedRows = none ∧
    (⟨⟨[], 5, none⟩, none, 0, none, -1⟩ :
        AsyncCursorState Nat Nat).bufferedDescription = none ∧
    (⟨⟨[], 5, none⟩, none, 0, none, -1⟩ :
        AsyncCursorState Nat Nat).sync.rowcount = 5 ∧
    AsyncCursor.rowcountProp
        (⟨⟨[], 5, none⟩, none, 0, none, -1⟩ : AsyncCursorState Nat Nat) ≠
      (⟨⟨[], 5, none⟩, none, 0, none, -1⟩ :
        AsyncCursorState Nat Nat).sync.rowcount := by
  decide

/-- C7 amended: `description` returns the buffered snapshot when present
and otherwise the live cursor's description; `rowcount` always returns the
cached last-known count — it is independent of the live blocking cursor's
current value. -/
theorem metadata_snapshot_amended {Row Desc : Type} :
    ∀ (st : AsyncCursorState Row Desc) (v : Int),
      AsyncCursor.descriptionProp st =
        (if st.bufferedDescription.isSome then st.bufferedDescription
         else st.sync.description) ∧
      AsyncCursor.rowcountProp st = st.rowcount ∧
      AsyncCursor.rowcountProp
          { st with sync := { st.sync with rowcount := v } } =
        AsyncCursor.rowcountProp st := by
  intro st v
  refine ⟨?_, rfl, rfl⟩
  rw [AsyncCursor.descriptionProp]
  cases st.bufferedDescription <;> simp

/-- C8.  Integrity reclassification: a driver exception whose lower-cased
message contains "violation" together with one of "primary", "unique",
"foreign", "constraint" is translated to the integrity-error category; one
containing "violation" but none of the four is not reclassified and is
passed through. -/
theorem integrity_reclassification :
    ∀ (msg : List Char),
      (strContains (pyLower msg) "violation".toList = true →
        (strContains (pyLower msg) "primary".toList ||
         strContains (pyLower msg) "unique".toList ||
         strContains (pyLower msg) "foreign".toList ||
         strContains (pyLower msg) "constraint".toList) = true →
        dbapi_exception_translation msg =
          ExceptionTranslation.integrityError) ∧
      (strContains (pyLower msg) "violation".toList = true →
        (strContains (pyLower msg) "primary".toList ||
         strContains (pyLower msg) "unique".toList ||
         strContains (pyLower msg) "foreign".toList ||
         strContains (pyLower msg) "constraint".toList) = false →
        dbapi_exception_translation msg =
          ExceptionTranslation.passthrough) := by
  intro msg
  constructor
  · intro hv hw
    have hi : isIntegrityMessage msg = true := by
      rw [isIntegrityMessage]
      simp only [hv, hw]
      rfl
    rw [dbapi_exception_translation, if_pos hi]
  · intro hv hw
    have hi : isIntegrityMessage msg = false := by
      rw [isIntegrityMessage]
      simp only [hv, hw]
      rfl
    rw [dbapi_exception_translation, hi]
    rfl

/-- C8 witness: "UNIQUE KEY violation on T" is reclassified; "access
violation" is passed through. -/
theorem integrity_reclassification_witness :
    dbapi_exception_translation "UNIQUE KEY violation on T".toList =
      ExceptionTranslation.integrityError ∧
    dbapi_exception_translation "access violation".toList =
      ExceptionTranslation.passthrough := by
  constructor
  · exact (integrity_reclassification "UNIQUE KEY violation on T".toList).1
      (by decide) (by decide)
  · exact (integrity_reclassification "access violation".toList).2
      (by decide) (by decide)

/-- C9.  Disconnect classification: a `DatabaseError` carrying one of the
designated connection-lost codes in its error-code slot, or the designated
message substring, is classified as a disconnect; one with an unrelated
code and no matching substring is not. -/
theorem disconnect_classification :
    ∀ (code : Int) (msg : List Char) (superVerdict : Bool),
      ((code = 335546001 ∨ code = 335546003 ∨ code = 335546005) →
        is_disconnect true code msg superVerdict = true) ∧
      (strContains msg "Error writing data to the connection".toList = true →
        is_disconnect true code msg superVerdict = true) ∧
      (code ≠ 335546001 → code ≠ 335546003 → code ≠ 335546005 →
        strContains msg "Error writing data to the connection".toList = false →
        is_disconnect true code msg superVerdict = false) := by
  intro code msg superVerdict
  refine ⟨?_, ?_, ?_⟩
  · intro hcode
    rw [is_disconnect, if_pos rfl]
    rcases hcode with h | h | h <;> subst h <;> simp
  · intro hmsg
    rw [is_disconnect, if_pos rfl, hmsg]
    simp
  · intro h1 h2 h3 hmsg
    rw [is_disconnect, if_pos rfl, hmsg]
    simp only [Bool.or_false, Bool.or_eq_false_iff]
    refine ⟨⟨?_, ?_⟩, ?_⟩ <;>
      simpa using by omega

/-- C9 witness: code 335546001 is a disconnect; code 42 with an unrelated
message is not. -/
theorem disconnect_classification_witness :
    is_disconnect true 335546001 "boom".toList false = true ∧
    is_disconnect true 42 "boom".toList false = false := by
  constructor
  · exact (disconnect_classification 335546001 "boom".toList false).1
      (Or.inl rfl)
  · exact (disconnect_classification 42 "boom".toList false).2.2
      (by decide) (by decide) (by decide) (by decide)

/-- C10.  `terminate` is equivalent to `close`: in both driver variants
the connection's `terminate` performs exactly the state change of `close`
and returns its result — there is no separate forced teardown path. -/
theorem terminate_equals_close :
    (∀ {H : Type} (env : FbCloseEnv) (handle : Option H) (z : List H),
       fbConnTerminate env handle z = fbConnClose env handle z) ∧
    (∀ (underlyingCloseRaises : Bool) (st : FdbConnState),
       fdbConnTerminate underlyingCloseRaises st =
         fdbConnClose underlyingCloseRaises st) :=
  ⟨fun _ _ _ => rfl, fun _ _ => rfl⟩
